import Mathlib

/-!
Shallow embedding of the hive Cancun genesis configuration
(`simulators/ethereum/engine/config/cancun/genesis.go`) and of the
`HiveRPCEngineClient` Engine-API adapter (`hive_rpc` package in the same
source bundle).  Go maps are modelled as association lists with
latest-assignment-wins lookup; Go pointers that may be nil are modelled as
`Option`; fallible Go functions returning `error` are modelled with
`Except String` or an `Option String` error component.  External effects
(the current chain head fetched over RPC, the network nonce query, the JWT
signing primitive, batch-call outcomes) are passed in as explicit inputs,
so every function here is the pure residue of the corresponding Go
function once its wire round trips are given.
-/

/-- Association-list model of a Go map keyed by `Nat` (addresses, storage
keys): assignment conses the new binding, lookup takes the first match, so
the latest assignment wins, matching Go map overwrite semantics. -/
def goMapAssign {β : Type} (m : List (Nat × β)) (k : Nat) (v : β) : List (Nat × β) :=
  (k, v) :: m

/-- First-match lookup in the association-list model of a Go map. -/
def goMapLookup {β : Type} : List (Nat × β) → Nat → Option β
  | [], _ => none
  | (k1, v) :: rest, k => if k = k1 then some v else goMapLookup rest k

/-- Boolean success test for `Except`, mirroring an `err == nil` check. -/
def isOkE {α : Type} : Except String α → Bool
  | .ok _ => true
  | .error _ => false

/-! ## Genesis configuration (`config/cancun/genesis.go`) -/

/-- The parts of go-ethereum `params.ChainConfig` read or written by
`ConfigGenesis`: the optional Shanghai and Cancun activation times
(`*uint64` pointers, so `Option Nat`). -/
structure ChainConfig where
  ShanghaiTime : Option Nat
  CancunTime : Option Nat
deriving DecidableEq

/-- The parts of go-ethereum `core.GenesisAccount` used by the genesis
configuration: balance, nonce and code bytes. -/
structure GenesisAccount where
  Balance : Nat
  Nonce : Nat
  Code : List Nat
deriving DecidableEq

/-- The parts of go-ethereum `core.Genesis` used by `ConfigGenesis` and
`ConfigTestAccounts`. `Alloc` is the allocation map from addresses to
accounts. -/
structure Genesis where
  Config : ChainConfig
  Timestamp : Nat
  BlobGasUsed : Option Nat
  ExcessBlobGas : Option Nat
  Alloc : List (Nat × GenesisAccount)
deriving DecidableEq

/-- Value of one hex digit character, as in go-ethereum `common.Hex2Bytes`
(invalid characters never occur in the fixed literal we decode). -/
def hexVal (c : Char) : Nat :=
  if 48 ≤ c.toNat ∧ c.toNat ≤ 57 then c.toNat - 48
  else if 97 ≤ c.toNat ∧ c.toNat ≤ 102 then c.toNat - 87
  else if 65 ≤ c.toNat ∧ c.toNat ≤ 70 then c.toNat - 55
  else 0

/-- Decode pairs of hex digits into bytes. -/
def hexPairsToBytes : List Char → List Nat
  | c1 :: c2 :: rest => (hexVal c1 * 16 + hexVal c2) :: hexPairsToBytes rest
  | _ => []

/-- Model of go-ethereum `common.Hex2Bytes`. -/
def hex2Bytes (s : String) : List Nat :=
  hexPairsToBytes s.toList

/-- Modelled from the spec: the well-known address of the pre-deployed
historical beacon-root fixture contract (`BEACON_ROOTS_ADDRESS`), declared
elsewhere in the repository; only its identity as a fixed address matters
here. -/
def BEACON_ROOTS_ADDRESS : Nat :=
  0x000F3df6D732807Ef1319fB7B8bB8522d0Beac02

/-- The EIP-4788 pre-deploy bytecode injected by `ConfigGenesis`, decoded
from the hex literal in the source. -/
def beaconRootsCode : List Nat :=
  hex2Bytes "3373fffffffffffffffffffffffffffffffffffffffe14604d57602036146024575f5ffd5b5f35801560495762001fff810690815414603c575f5ffd5b62001fff01545f5260205ff35b5f5ffd5b62001fff42064281555f359062001fff015500"

/-- The account written at `BEACON_ROOTS_ADDRESS` by `ConfigGenesis`:
zero balance, nonce 1, the pre-deploy bytecode. -/
def beaconRootsAccount : GenesisAccount :=
  { Balance := 0, Nonce := 1, Code := beaconRootsCode }

/-- Model of `ConfigGenesis`.  The Go function mutates `genesis` through a
pointer and returns an `error`; the model returns the error (as
`Option String`) together with the final state of the genesis, including
the state left behind on the error paths. -/
def ConfigGenesis (genesis : Genesis) (forkTimestamp : Nat) : Option String × Genesis :=
  match genesis.Config.ShanghaiTime with
  | none => (some "cancun fork requires shanghai fork", genesis)
  | some shanghaiTime =>
    let genesis := { genesis with Config := { genesis.Config with CancunTime := some forkTimestamp } }
    if shanghaiTime > forkTimestamp then
      (some "cancun fork must be after shanghai fork", genesis)
    else
      let genesis :=
        if genesis.Timestamp ≥ forkTimestamp then
          { genesis with
            BlobGasUsed := some (genesis.BlobGasUsed.getD 0),
            ExcessBlobGas := some (genesis.ExcessBlobGas.getD 0) }
        else genesis
      (none, { genesis with Alloc := goMapAssign genesis.Alloc BEACON_ROOTS_ADDRESS beaconRootsAccount })

/-- Modelled from the spec: `DATAHASH_START_ADDRESS`, the first address of
the DATAHASH fixture-account range, declared elsewhere in the repository;
only its identity as a fixed base address matters here. -/
def DATAHASH_START_ADDRESS : Nat := 0x20000

/-- Modelled from the spec: `DATAHASH_ADDRESS_COUNT`, the number of
DATAHASH fixture accounts, declared elsewhere in the repository. -/
def DATAHASH_ADDRESS_COUNT : Nat := 4

/-- The DATAHASH-opcode bytecode placed at every fixture address by
`ConfigTestAccounts`. -/
def datahashCode : List Nat :=
  [0x5F, 0x80, 0x49, 0x55,
   0x60, 0x01, 0x80, 0x49, 0x55,
   0x60, 0x02, 0x80, 0x49, 0x55,
   0x60, 0x03, 0x80, 0x49, 0x55]

/-- The fixture account stored at each DATAHASH address: the DATAHASH code
and balance 1 (nonce left at its zero value). -/
def datahashAccount : GenesisAccount :=
  { Balance := 1, Nonce := 0, Code := datahashCode }

/-- The loop body of `ConfigTestAccounts` over the remaining DATAHASH
indices: for each index, compute the address, panic (modelled as
`Except.error`) if the address is already allocated, otherwise insert the
fixture account and continue. -/
def configTestAccountsLoop (alloc : List (Nat × GenesisAccount)) :
    List Nat → Except String (List (Nat × GenesisAccount))
  | [] => .ok alloc
  | i :: rest =>
    let address := DATAHASH_START_ADDRESS + i
    match goMapLookup alloc address with
    | some _ => .error ("reused address " ++ toString address ++ " during genesis configuration for cancun")
    | none => configTestAccountsLoop (goMapAssign alloc address datahashAccount) rest

/-- Model of `ConfigTestAccounts`: run the DATAHASH fixture loop over
indices `0, ..., DATAHASH_ADDRESS_COUNT - 1`. -/
def ConfigTestAccounts (genesis : Genesis) : Except String Genesis :=
  match configTestAccountsLoop genesis.Alloc (List.range DATAHASH_ADDRESS_COUNT) with
  | .error e => .error e
  | .ok alloc => .ok { genesis with Alloc := alloc }

/-! ## Nonce tracker (`HiveRPCEngineClient` account nonce methods) -/

/-- The header fields of the chain head used by the nonce tracker: the
block hash (as reconciled by the block-resolution helper), the parent
hash, and the block number passed to the network nonce query. -/
structure BlockHeader where
  hash : Nat
  parentHash : Nat
  number : Nat
deriving DecidableEq

/-- Go `AccountTransactionInfo`: the block at which the account nonce was
last observed or assigned, and that nonce. -/
structure AccountTransactionInfo where
  PreviousBlock : Nat
  PreviousNonce : Nat
deriving DecidableEq

/-- The `accTxInfoMap` field: a Go map from account address to a possibly
nil pointer to `AccountTransactionInfo`. -/
abbrev AccMap := List (Nat × Option AccountTransactionInfo)

/-- Model of `GetLastAccountNonce` after the head fetch succeeded: the
result and the (unchanged) account map.  The Go function performs no
writes; the map is returned to make the frame condition statable. -/
def GetLastAccountNonce (m : AccMap) (head : BlockHeader) (account : Nat) :
    Except String Nat × AccMap :=
  match goMapLookup m account with
  | some (some accTxInfo) =>
    if accTxInfo.PreviousBlock = head.hash ∨ accTxInfo.PreviousBlock = head.parentHash then
      (.ok accTxInfo.PreviousNonce, m)
    else
      (.error ("no previous nonce for account " ++ toString account), m)
  | _ => (.error ("no previous nonce for account " ++ toString account), m)

/-- The fall-through path of `GetNextAccountNonce`: issue the network
nonce query (its outcome is the `nonceAt` input), store
`(head, queriedNonce)` in the map on success, and return the queried
value.  The third component records that a network query was issued. -/
def getNextAccountNonceFetch (m : AccMap) (head : BlockHeader)
    (nonceAt : Except String Nat) (account : Nat) :
    Except String Nat × AccMap × Bool :=
  match nonceAt with
  | .error e => (.error e, m, true)
  | .ok nonce =>
    (.ok nonce, goMapAssign m account (some { PreviousBlock := head.hash, PreviousNonce := nonce }), true)

/-- Model of `GetNextAccountNonce` after the head fetch succeeded.
`nonceAt` is the outcome the network nonce query would have (it is only
consumed on the fall-through path).  Returns the result, the new account
map, and whether a network nonce query was issued. -/
def GetNextAccountNonce (m : AccMap) (head : BlockHeader)
    (nonceAt : Except String Nat) (account : Nat) :
    Except String Nat × AccMap × Bool :=
  match goMapLookup m account with
  | some (some accTxInfo) =>
    if accTxInfo.PreviousBlock = head.hash ∨ accTxInfo.PreviousBlock = head.parentHash then
      (.ok (accTxInfo.PreviousNonce + 1),
       goMapAssign m account
         (some { PreviousBlock := head.hash, PreviousNonce := accTxInfo.PreviousNonce + 1 }),
       false)
    else
      getNextAccountNonceFetch m head nonceAt account
  | _ => getNextAccountNonceFetch m head nonceAt account

/-! ## JWT authentication (`GetNewToken`, `PrepareAuthCallToken`,
`PrepareDefaultAuthCallToken`) -/

/-- The claim set minted for every token: the issued-at Unix timestamp. -/
structure TokenClaims where
  iat : Int
deriving DecidableEq

/-- Model of `GetNewToken`: build the claims, run the external signing
primitive (`signer`, standing for `jwt SignedString` with the shared
secret), and propagate its failure. -/
def GetNewToken (signer : TokenClaims → Except String String) (iat : Int) :
    Except String String :=
  match signer { iat := iat } with
  | .error e => .error e
  | .ok tokenString => .ok tokenString

/-- Model of `PrepareAuthCallToken`: mint a token and, on success, set the
Authorization header (returned here as the ok value so it is observable);
a minting failure is returned to the caller. -/
def PrepareAuthCallToken (signer : TokenClaims → Except String String) (iat : Int) :
    Except String String :=
  match GetNewToken signer iat with
  | .error e => .error e
  | .ok newTokenString => .ok ("Bearer " ++ newTokenString)

/-- Model of `PrepareDefaultAuthCallToken`: the source calls
`PrepareAuthCallToken` but discards its result and returns nil
unconditionally. -/
def PrepareDefaultAuthCallToken (signer : TokenClaims → Except String String) (iat : Int) :
    Except String Unit :=
  let _ := PrepareAuthCallToken signer iat
  Except.ok ()

/-! ## GetPayload version dispatch -/

/-- Abstract stand-in for `typ.ExecutableData`; the adapter never inspects
its contents, so one opaque field suffices.  Its `default` is the Go zero
value. -/
structure ExecutableData where
  raw : Nat
deriving DecidableEq

instance : Inhabited ExecutableData := ⟨⟨0⟩⟩

/-- Abstract stand-in for `typ.BlobsBundle`. -/
structure BlobsBundle where
  raw : Nat
deriving DecidableEq

/-- The envelope shape decoded for `getPayload` version 2 and above, with
the fields `GetPayload` reads: an optional payload pointer, the block
value (`*big.Int`), the blobs bundle pointer and the override-flag
pointer. -/
structure ExecutionPayloadEnvelope where
  ExecutionPayload : Option ExecutableData
  BlockValue : Option Int
  BlobsBundle : Option BlobsBundle
  ShouldOverrideBuilder : Option Bool
deriving DecidableEq

/-- Model of the decode-and-extract logic of `GetPayload` once the wire
response is in hand: for version `≥ 2` the response is decoded as an
envelope (`envelopeResponse`) and the auxiliary fields are taken from it,
the payload falling back to the zero value when the envelope carries no
payload; otherwise the response is decoded directly as the bare payload
(`bareResponse`) and the auxiliary results stay nil.  The auth-token
preparation preceding this in the source always succeeds (see
`PrepareDefaultAuthCallToken`). -/
def GetPayload (version : Int) (envelopeResponse : ExecutionPayloadEnvelope)
    (bareResponse : ExecutableData) :
    ExecutableData × Option Int × Option BlobsBundle × Option Bool :=
  if version ≥ 2 then
    let executableData :=
      match envelopeResponse.ExecutionPayload with
      | some p => p
      | none => default
    (executableData, envelopeResponse.BlockValue, envelopeResponse.BlobsBundle,
     envelopeResponse.ShouldOverrideBuilder)
  else
    (bareResponse, none, none, none)

/-! ## NewPayload wire arity -/

/-- One positional JSON-RPC argument of a `newPayload` dispatch. -/
inductive WireArg where
  | payloadArg (p : Nat)
  | versionedHashesArg (vh : Option (List Nat))
  | beaconRootArg (br : Option Nat)
deriving DecidableEq

/-- Model of the argument list `NewPayload` passes to `CallContext`: for
version `≥ 3` the payload plus the (possibly nil) versioned hashes and
beacon root, positionally; otherwise the payload alone. -/
def NewPayloadWireArgs (version : Int) (payload : Nat)
    (versionedHashes : Option (List Nat)) (beaconRoot : Option Nat) : List WireArg :=
  if version ≥ 3 then
    [WireArg.payloadArg payload, WireArg.versionedHashesArg versionedHashes,
     WireArg.beaconRootArg beaconRoot]
  else
    [WireArg.payloadArg payload]

/-! ## Batch calls (`StorageAtKeys`, `SendTransactions`) -/

/-- Scan the per-element batch outcomes (decoded value, per-element error)
in order, returning the index and message of the first element error, as
the post-batch loop of `StorageAtKeys` does. -/
def firstElemErrorAux : Nat → List (Nat × Option String) → Option (Nat × String)
  | _, [] => none
  | i, (_, some e) :: _ => some (i, e)
  | i, (_, none) :: rest => firstElemErrorAux (i + 1) rest

/-- Build the results map of `StorageAtKeys`: the map entry for each key
is the value decoded for that key position (Go fills it through a pointer
shared between the request and the map). -/
def buildResults (m : List (Nat × Nat)) :
    List Nat → List (Nat × Option String) → List (Nat × Nat)
  | [], _ => m
  | _, [] => m
  | key :: keys, (v, _) :: elems => buildResults (goMapAssign m key v) keys elems

/-- Model of `StorageAtKeys` given the batch outcome: a transport failure
fails the whole call; otherwise the per-element outcomes (one per key,
positionally) are scanned and the first element error fails the whole call
wrapped with its index; only when every element succeeded is the results
map returned. -/
def StorageAtKeys (keys : List Nat)
    (batchOutcome : Except String (List (Nat × Option String))) :
    Except String (List (Nat × Nat)) :=
  match batchOutcome with
  | .error e => .error e
  | .ok elems =>
    match firstElemErrorAux 0 elems with
    | some (i, e) => .error ("request for storage at index " ++ toString i ++ " failed: " ++ e)
    | none => .ok (buildResults [] keys elems)

/-- The marshalling loop of `SendTransactions`: the first transaction that
fails to marshal aborts the whole call with its error. -/
def firstMarshalError : List (Except String Nat) → Option String
  | [] => none
  | .error e :: _ => some e
  | .ok _ :: rest => firstMarshalError rest

/-- Model of `SendTransactions` given the marshalling outcomes and the
batch outcome (per-element errors on success).  It mirrors the source
exactly: a marshal failure or a batch transport failure is returned as a
one-element error slice; otherwise the per-element error slice `errs` is
built and then discarded, the function returning nil. -/
def SendTransactions (marshals : List (Except String Nat))
    (batchOutcome : Except String (List (Option String))) :
    Option (List (Option String)) :=
  match firstMarshalError marshals with
  | some e => some [some e]
  | none =>
    match batchOutcome with
    | .error e => some [some e]
    | .ok elemErrors =>
      let _errs : List (Option String) := elemErrors
      none

/-! ## Helper lemmas -/

theorem goMapLookup_assign {β : Type} (m : List (Nat × β)) (k k' : Nat) (v : β) :
    goMapLookup (goMapAssign m k v) k' = if k' = k then some v else goMapLookup m k' :=
  rfl

theorem firstElemErrorAux_none_iff (elems : List (Nat × Option String)) : ∀ i : Nat,
    firstElemErrorAux i elems = none ↔ ∀ p ∈ elems, p.2 = none := by
  induction elems with
  | nil => intro i; simp [firstElemErrorAux]
  | cons p rest ih =>
    intro i
    obtain ⟨v, e⟩ := p
    cases e with
    | none => simp [firstElemErrorAux, List.forall_mem_cons, ih (i + 1)]
    | some s => simp [firstElemErrorAux, List.forall_mem_cons]

theorem buildResults_lookup (keys : List Nat) :
    ∀ (elems : List (Nat × Option String)) (m : List (Nat × Nat)) (k : Nat),
    elems.length = keys.length →
    ((goMapLookup (buildResults m keys elems) k).isSome = true ↔
      k ∈ keys ∨ (goMapLookup m k).isSome = true) := by
  induction keys with
  | nil => intro elems m k _; simp [buildResults]
  | cons key ks ih =>
    intro elems m k h
    cases elems with
    | nil => simp at h
    | cons p es =>
      obtain ⟨v, err⟩ := p
      simp only [buildResults]
      rw [ih es (goMapAssign m key v) k (by simpa using h)]
      rw [goMapLookup_assign]
      by_cases hk : k = key
      · simp [hk, List.mem_cons]
      · simp [hk, List.mem_cons]

theorem configTestAccountsLoop_isOk (is : List Nat) :
    ∀ alloc : List (Nat × GenesisAccount), is.Nodup →
    (isOkE (configTestAccountsLoop alloc is) = true ↔
      ∀ i ∈ is, goMapLookup alloc (DATAHASH_START_ADDRESS + i) = none) := by
  induction is with
  | nil => intro alloc _; simp [configTestAccountsLoop, isOkE]
  | cons i rest ih =>
    intro alloc hnd
    rw [List.nodup_cons] at hnd
    obtain ⟨hni, hndr⟩ := hnd
    simp only [configTestAccountsLoop]
    cases hl : goMapLookup alloc (DATAHASH_START_ADDRESS + i) with
    | some acct =>
      simp only [isOkE]
      constructor
      · intro hfalse; cases hfalse
      · intro hall
        have hi := hall i (List.mem_cons_self i rest)
        rw [hl] at hi
        cases hi
    | none =>
      rw [ih (goMapAssign alloc (DATAHASH_START_ADDRESS + i) datahashAccount) hndr]
      constructor
      · intro hall j hj
        rcases List.mem_cons.mp hj with rfl | hjr
        · exact hl
        · have hj2 := hall j hjr
          have hne : DATAHASH_START_ADDRESS + j ≠ DATAHASH_START_ADDRESS + i := by
            intro heq
            have hji : j = i := by omega
            subst hji
            exact hni hjr
          rw [goMapLookup_assign, if_neg hne] at hj2
          exact hj2
      · intro hall j hjr
        have hne : DATAHASH_START_ADDRESS + j ≠ DATAHASH_START_ADDRESS + i := by
          intro heq
          have hji : j = i := by omega
          subst hji
          exact hni hjr
        rw [goMapLookup_assign, if_neg hne]
        exact hall j (List.mem_cons_of_mem _ hjr)

/-! ## Claim theorems -/

/-- C2: for every `GetPayload` call with version at least 2 the wire
response is decoded as an envelope and the returned block value, blobs
bundle and override flag are taken from that envelope (the payload falling
back to its zero value when the envelope carries none); for version 1 the
wire response is decoded directly as the bare payload and the block value,
blobs bundle and override flag are all nil. -/
theorem getPayload_version_dispatch (version : Int) (env : ExecutionPayloadEnvelope)
    (bare : ExecutableData) :
    (2 ≤ version →
      GetPayload version env bare =
        (env.ExecutionPayload.getD default, env.BlockValue, env.BlobsBundle,
         env.ShouldOverrideBuilder)) ∧
    (version = 1 → GetPayload version env bare = (bare, none, none, none)) := by
  constructor
  · intro h
    unfold GetPayload
    rw [if_pos h]
    cases env.ExecutionPayload <;> rfl
  · intro h
    unfold GetPayload
    rw [if_neg (by omega)]

/-- Witness for C2: concrete envelope decode at version 3 and bare decode
at version 1. -/
theorem getPayload_version_dispatch_witness :
    GetPayload 3 ⟨some ⟨11⟩, some 42, some ⟨7⟩, some true⟩ ⟨99⟩ =
      (⟨11⟩, some 42, some ⟨7⟩, some true) ∧
    GetPayload 1 ⟨some ⟨11⟩, some 42, some ⟨7⟩, some true⟩ ⟨99⟩ =
      (⟨99⟩, none, none, none) :=
  ⟨(getPayload_version_dispatch 3 ⟨some ⟨11⟩, some 42, some ⟨7⟩, some true⟩ ⟨99⟩).1 (by decide),
   (getPayload_version_dispatch 1 ⟨some ⟨11⟩, some 42, some ⟨7⟩, some true⟩ ⟨99⟩).2 rfl⟩

/-- C3: for every `NewPayload` call with version at least 3 the request
carries the payload plus the versioned-hashes and beacon-root parameters
positionally even when they are nil; for version below 3 the payload is
the only wire argument. -/
theorem newPayload_wire_arity (version : Int) (payload : Nat)
    (vh : Option (List Nat)) (br : Option Nat) :
    (3 ≤ version →
      NewPayloadWireArgs version payload vh br =
        [WireArg.payloadArg payload, WireArg.versionedHashesArg vh,
         WireArg.beaconRootArg br]) ∧
    (version < 3 →
      NewPayloadWireArgs version payload vh br = [WireArg.payloadArg payload]) := by
  constructor
  · intro h
    unfold NewPayloadWireArgs
    rw [if_pos h]
  · intro h
    unfold NewPayloadWireArgs
    rw [if_neg (by omega)]

/-- Witness for C3: version 3 with both optional parameters nil still
sends three positional arguments; version 2 sends only the payload. -/
theorem newPayload_wire_arity_witness :
    NewPayloadWireArgs 3 5 none none =
      [WireArg.payloadArg 5, WireArg.versionedHashesArg none, WireArg.beaconRootArg none] ∧
    NewPayloadWireArgs 2 5 none none = [WireArg.payloadArg 5] :=
  ⟨(newPayload_wire_arity 3 5 none none).1 (by decide),
   (newPayload_wire_arity 2 5 none none).2 (by decide)⟩

/-- C5 (code bug): `SendTransactions` surfaces a marshal failure and a
batch transport failure as a one-element error slice, but after a
successful batch it discards the per-element error slice it builds and
returns nil, so a per-element error is never surfaced to the caller. -/
theorem sendTransactions_swallows_element_errors :
    SendTransactions [Except.ok 0] (.ok [some "element error"]) = none ∧
    SendTransactions [Except.ok 0] (.error "transport failure") =
      some [some "transport failure"] ∧
    SendTransactions [Except.error "marshal failure"] (.ok [none]) =
      some [some "marshal failure"] :=
  ⟨rfl, rfl, rfl⟩

/-- C6 (code bug): `PrepareDefaultAuthCallToken` calls
`PrepareAuthCallToken` but discards its result and returns nil
unconditionally, so a token-signing failure that the inner function
propagates is swallowed instead of aborting the call. -/
theorem prepareDefaultAuthCallToken_ignores_failure :
    PrepareDefaultAuthCallToken (fun _ => .error "token signing failed") 0 =
      Except.ok () ∧
    PrepareAuthCallToken (fun _ => .error "token signing failed") 0 =
      Except.error "token signing failed" :=
  ⟨rfl, rfl⟩

/-- C8: `ConfigGenesis` fails when the Shanghai activation time is unset,
fails when the Shanghai time is strictly later than the requested Cancun
time, and otherwise succeeds with the Cancun activation time set to the
requested value. -/
theorem configGenesis_fork_checks (genesis : Genesis) (ts s : Nat) :
    (genesis.Config.ShanghaiTime = none →
      (ConfigGenesis genesis ts).1 = some "cancun fork requires shanghai fork") ∧
    (genesis.Config.ShanghaiTime = some s → ts < s →
      (ConfigGenesis genesis ts).1 = some "cancun fork must be after shanghai fork") ∧
    (genesis.Config.ShanghaiTime = some s → s ≤ ts →
      (ConfigGenesis genesis ts).1 = none ∧
      (ConfigGenesis genesis ts).2.Config.CancunTime = some ts) := by
  refine ⟨?_, ?_, ?_⟩
  · intro h
    simp only [ConfigGenesis, h]
  · intro h hlt
    simp only [ConfigGenesis, h]
    rw [if_pos (by omega)]
  · intro h hle
    simp only [ConfigGenesis, h]
    rw [if_neg (by omega)]
    constructor
    · split <;> rfl
    · split <;> rfl

/-- Witness for C8: a genesis without Shanghai fails; Shanghai at 10 with
requested time 5 fails the ordering check; Shanghai at 10 with requested
time 20 succeeds and sets the Cancun time to 20. -/
theorem configGenesis_fork_checks_witness :
    (ConfigGenesis ⟨⟨none, none⟩, 0, none, none, []⟩ 5).1 =
      some "cancun fork requires shanghai fork" ∧
    (ConfigGenesis ⟨⟨some 10, none⟩, 0, none, none, []⟩ 5).1 =
      some "cancun fork must be after shanghai fork" ∧
    (ConfigGenesis ⟨⟨some 10, none⟩, 0, none, none, []⟩ 20).1 = none ∧
    (ConfigGenesis ⟨⟨some 10, none⟩, 0, none, none, []⟩ 20).2.Config.CancunTime =
      some 20 :=
  ⟨(configGenesis_fork_checks ⟨⟨none, none⟩, 0, none, none, []⟩ 5 0).1 rfl,
   (configGenesis_fork_checks ⟨⟨some 10, none⟩, 0, none, none, []⟩ 5 10).2.1 rfl (by omega),
   ((configGenesis_fork_checks ⟨⟨some 10, none⟩, 0, none, none, []⟩ 20 10).2.2 rfl (by omega)).1,
   ((configGenesis_fork_checks ⟨⟨some 10, none⟩, 0, none, none, []⟩ 20 10).2.2 rfl (by omega)).2⟩

/-- C10: on the fork-ordering error path (Shanghai strictly later than the
requested Cancun time) `ConfigGenesis` has already written the requested
Cancun time into the configuration, so the error path leaves the genesis
mutated whenever its Cancun time was not already the requested value. -/
theorem configGenesis_ordering_error_mutates (genesis : Genesis) (ts s : Nat) :
    genesis.Config.ShanghaiTime = some s → ts < s →
    (ConfigGenesis genesis ts).1.isSome = true ∧
    (ConfigGenesis genesis ts).2.Config.CancunTime = some ts ∧
    (genesis.Config.CancunTime ≠ some ts → (ConfigGenesis genesis ts).2 ≠ genesis) := by
  intro h hlt
  have h2 : (ConfigGenesis genesis ts).2.Config.CancunTime = some ts := by
    simp only [ConfigGenesis, h]
    rw [if_pos (by omega)]
  refine ⟨?_, h2, ?_⟩
  · simp only [ConfigGenesis, h]
    rw [if_pos (by omega)]
    rfl
  · intro hne heq
    exact hne (heq ▸ h2)

/-- Witness for C10: with Shanghai at 10 and requested Cancun time 5, the
call errors and the returned genesis differs from the input. -/
theorem configGenesis_ordering_error_mutates_witness :
    (ConfigGenesis ⟨⟨some 10, none⟩, 0, none, none, []⟩ 5).1.isSome = true ∧
    (ConfigGenesis ⟨⟨some 10, none⟩, 0, none, none, []⟩ 5).2 ≠
      ⟨⟨some 10, none⟩, 0, none, none, []⟩ := by
  obtain ⟨ha, -, hc⟩ :=
    configGenesis_ordering_error_mutates ⟨⟨some 10, none⟩, 0, none, none, []⟩ 5 10 rfl (by omega)
  exact ⟨ha, hc (by decide)⟩

/-- Counterexample to C9: a genesis whose allocation already contains an
account at `BEACON_ROOTS_ADDRESS` is not rejected by `ConfigGenesis`; the
call succeeds and the existing entry is silently overwritten with the
beacon-roots pre-deploy account. -/
theorem configGenesis_beacon_overwrite_cex :
    goMapLookup (⟨⟨some 0, none⟩, 0, none, none,
        [(BEACON_ROOTS_ADDRESS, ⟨5, 0, []⟩)]⟩ : Genesis).Alloc BEACON_ROOTS_ADDRESS =
      some ⟨5, 0, []⟩ ∧
    (ConfigGenesis ⟨⟨some 0, none⟩, 0, none, none,
        [(BEACON_ROOTS_ADDRESS, ⟨5, 0, []⟩)]⟩ 0).1 = none ∧
    goMapLookup (ConfigGenesis ⟨⟨some 0, none⟩, 0, none, none,
        [(BEACON_ROOTS_ADDRESS, ⟨5, 0, []⟩)]⟩ 0).2.Alloc BEACON_ROOTS_ADDRESS =
      some beaconRootsAccount ∧
    beaconRootsAccount ≠ ⟨5, 0, []⟩ := by
  refine ⟨rfl, rfl, rfl, ?_⟩
  intro h
  exact absurd (congrArg GenesisAccount.Balance h) (by decide)

/-- C9 (amended): the DATAHASH fixture loop of `ConfigTestAccounts`
fatally rejects exactly the genesis allocations that already contain one
of the DATAHASH fixture addresses, while the beacon-roots pre-deploy in
`ConfigGenesis` is written without any collision check: whenever the fork
checks pass the call succeeds and the pre-deploy account is stored at
`BEACON_ROOTS_ADDRESS`, overwriting any existing entry. -/
theorem genesisCollisionPolicy (genesis : Genesis) (ts s : Nat) :
    (isOkE (ConfigTestAccounts genesis) = true ↔
      ∀ i, i < DATAHASH_ADDRESS_COUNT →
        goMapLookup genesis.Alloc (DATAHASH_START_ADDRESS + i) = none) ∧
    (genesis.Config.ShanghaiTime = some s → s ≤ ts →
      (ConfigGenesis genesis ts).1 = none ∧
      goMapLookup (ConfigGenesis genesis ts).2.Alloc BEACON_ROOTS_ADDRESS =
        some beaconRootsAccount) := by
  constructor
  · have h := configTestAccountsLoop_isOk (List.range DATAHASH_ADDRESS_COUNT)
      genesis.Alloc (List.nodup_range DATAHASH_ADDRESS_COUNT)
    unfold ConfigTestAccounts
    cases hl : configTestAccountsLoop genesis.Alloc (List.range DATAHASH_ADDRESS_COUNT) with
    | error e =>
      rw [hl] at h
      simp only [isOkE] at h ⊢
      rw [h]
      simp [List.mem_range]
    | ok alloc =>
      rw [hl] at h
      simp only [isOkE] at h ⊢
      rw [h]
      simp [List.mem_range]
  · intro h hle
    simp only [ConfigGenesis, h]
    rw [if_neg (by omega)]
    constructor
    · split <;> rfl
    · split <;> (rw [goMapLookup_assign, if_pos rfl])

/-- Witness for C9 (amended): an empty allocation passes the DATAHASH
collision check, and the fork-check success path stores the beacon-roots
account. -/
theorem genesisCollisionPolicy_witness :
    isOkE (ConfigTestAccounts ⟨⟨some 0, none⟩, 0, none, none, []⟩) = true ∧
    (ConfigGenesis ⟨⟨some 0, none⟩, 0, none, none, []⟩ 0).1 = none ∧
    goMapLookup (ConfigGenesis ⟨⟨some 0, none⟩, 0, none, none, []⟩ 0).2.Alloc
      BEACON_ROOTS_ADDRESS = some beaconRootsAccount := by
  refine ⟨(genesisCollisionPolicy ⟨⟨some 0, none⟩, 0, none, none, []⟩ 0 0).1.mpr ?_,
    ((genesisCollisionPolicy ⟨⟨some 0, none⟩, 0, none, none, []⟩ 0 0).2 rfl (le_refl 0)).1,
    ((genesisCollisionPolicy ⟨⟨some 0, none⟩, 0, none, none, []⟩ 0 0).2 rfl (le_refl 0)).2⟩
  intro i _
  rfl

/-- C7: `GetLastAccountNonce` leaves the account-nonce map unchanged, it
succeeds exactly when a cached entry exists whose stored block equals the
current head or the current head's parent, and its only failure is the
distinct no-previous-nonce condition (the model consumes no network nonce
input at all). -/
theorem getLastAccountNonce_frame (m : AccMap) (head : BlockHeader) (account : Nat) :
    (GetLastAccountNonce m head account).2 = m ∧
    (isOkE (GetLastAccountNonce m head account).1 = true ↔
      ∃ info, goMapLookup m account = some (some info) ∧
        (info.PreviousBlock = head.hash ∨ info.PreviousBlock = head.parentHash)) ∧
    ((GetLastAccountNonce m head account).1 =
        .error ("no previous nonce for account " ++ toString account) ∨
      isOkE (GetLastAccountNonce m head account).1 = true) := by
  unfold GetLastAccountNonce
  cases hl : goMapLookup m account with
  | none =>
    refine ⟨rfl, ?_, Or.inl rfl⟩
    simp only [isOkE, Bool.false_eq_true, false_iff]
    rintro ⟨info, hinfo, -⟩
    cases hinfo
  | some oinfo =>
    cases oinfo with
    | none =>
      refine ⟨rfl, ?_, Or.inl rfl⟩
      simp only [isOkE, Bool.false_eq_true, false_iff]
      rintro ⟨info, hinfo, -⟩
      cases hinfo
    | some info =>
      simp only
      by_cases hc : info.PreviousBlock = head.hash ∨ info.PreviousBlock = head.parentHash
      · rw [if_pos hc]
        refine ⟨rfl, ?_, Or.inr rfl⟩
        simp only [isOkE, true_iff]
        exact ⟨info, rfl, hc⟩
      · rw [if_neg hc]
        refine ⟨rfl, ?_, Or.inl rfl⟩
        simp only [isOkE, Bool.false_eq_true, false_iff]
        rintro ⟨info2, hinfo, hcond⟩
        have h1 : some info = some info2 := Option.some_injective _ hinfo
        have h2 : info = info2 := Option.some_injective _ h1
        exact hc (h2 ▸ hcond)

/-- Counterexample to C1: block headA has hash 10 and parent hash 5; the
current head is headA's direct parent (its hash is 5, headA's parent
hash).  With a cached entry `(headA, 4)` the claim demands the increment
path (return 5, no network query), but `GetNextAccountNonce` issues the
network nonce query (flag `true`), returns the queried nonce 9 verbatim
and stores `(head, 9)`: the code accepts the head only when it IS the
cached block or the cached block is the head's parent, not the other way
around. -/
theorem getNextAccountNonce_parent_direction_cex :
    (⟨10, 5, 6⟩ : BlockHeader).parentHash = (⟨5, 3, 5⟩ : BlockHeader).hash ∧
    GetNextAccountNonce [(7, some ⟨10, 4⟩)] ⟨5, 3, 5⟩ (.ok 9) 7 =
      (.ok 9, goMapAssign [(7, some ⟨10, 4⟩)] 7 (some ⟨5, 9⟩), true) ∧
    ¬ GetNextAccountNonce [(7, some ⟨10, 4⟩)] ⟨5, 3, 5⟩ (.ok 9) 7 =
      (.ok 5, goMapAssign [(7, some ⟨10, 4⟩)] 7 (some ⟨5, 5⟩), false) := by
  refine ⟨rfl, rfl, ?_⟩
  intro h
  exact absurd (congrArg (fun t => t.2.2) h) (by decide)

/-- C1 (amended): with a cached entry `(headA, N)`, if the current head is
headA itself or a direct child of headA (the head's parent hash equals
headA), `GetNextAccountNonce` returns `N + 1`, rewrites the cache entry to
`(currentHead, N + 1)` and issues no network nonce query; if the cached
block is neither the head nor the head's parent (or no entry is cached),
it issues the network nonce query at the current head, stores
`(currentHead, queriedNonce)` and returns the queried value verbatim. -/
theorem getNextAccountNonce_advance_or_fetch (m : AccMap) (head : BlockHeader)
    (account n : Nat) (info : AccountTransactionInfo) :
    (goMapLookup m account = some (some info) →
      info.PreviousBlock = head.hash ∨ info.PreviousBlock = head.parentHash →
      GetNextAccountNonce m head (.ok n) account =
        (.ok (info.PreviousNonce + 1),
         goMapAssign m account (some ⟨head.hash, info.PreviousNonce + 1⟩), false)) ∧
    ((∀ i, goMapLookup m account = some (some i) →
        i.PreviousBlock ≠ head.hash ∧ i.PreviousBlock ≠ head.parentHash) →
      GetNextAccountNonce m head (.ok n) account =
        (.ok n, goMapAssign m account (some ⟨head.hash, n⟩), true)) := by
  constructor
  · intro hl hc
    unfold GetNextAccountNonce
    rw [hl]
    simp only
    rw [if_pos hc]
  · intro hmiss
    unfold GetNextAccountNonce
    cases hl : goMapLookup m account with
    | none => rfl
    | some oinfo =>
      cases oinfo with
      | none => rfl
      | some i =>
        simp only
        rw [if_neg (not_or.mpr (hmiss i hl))]
        rfl

/-- Witness for C1 (amended): a cache hit on the exact head advances the
nonce from 3 to 4 without a network query; a stale cached block (8, with
head hash 5 and parent 2) forces the network query, whose value 7 is
returned and stored. -/
theorem getNextAccountNonce_advance_or_fetch_witness :
    GetNextAccountNonce [(1, some ⟨5, 3⟩)] ⟨5, 2, 9⟩ (.ok 7) 1 =
      (.ok 4, goMapAssign [(1, some ⟨5, 3⟩)] 1 (some ⟨5, 4⟩), false) ∧
    GetNextAccountNonce [(1, some ⟨8, 3⟩)] ⟨5, 2, 9⟩ (.ok 7) 1 =
      (.ok 7, goMapAssign [(1, some ⟨8, 3⟩)] 1 (some ⟨5, 7⟩), true) :=
  ⟨(getNextAccountNonce_advance_or_fetch [(1, some ⟨5, 3⟩)] ⟨5, 2, 9⟩ 1 7 ⟨5, 3⟩).1
      rfl (Or.inl rfl),
   (getNextAccountNonce_advance_or_fetch [(1, some ⟨8, 3⟩)] ⟨5, 2, 9⟩ 1 7 ⟨8, 3⟩).2 (by
      intro i hi
      have hi2 : some (some (⟨8, 3⟩ : AccountTransactionInfo)) = some (some i) := hi
      injection hi2 with h1
      injection h1 with h2
      rw [← h2]
      decide)⟩

/-- Counterexample to C4: a single key whose batch element carries a
per-element error makes the whole `StorageAtKeys` call return an error
(and no map at all), so one element's failure does make the batch call
fail for the caller. -/
theorem storageAtKeys_element_error_cex :
    StorageAtKeys [1] (.ok [(0, some "boom")]) =
      .error ("request for storage at index " ++ toString 0 ++ " failed: " ++ "boom") ∧
    isOkE (StorageAtKeys [1] (.ok [(0, some "boom")])) = false :=
  ⟨rfl, rfl⟩

/-- C4 (amended): a batch transport failure fails the whole
`StorageAtKeys` call with that error; any per-element error also fails the
whole call (no map is returned); only when every element succeeds does the
call return a mapping whose keys are exactly the input keys. -/
theorem storageAtKeys_batch_semantics (keys : List Nat)
    (elems : List (Nat × Option String)) (e : String) :
    StorageAtKeys keys (.error e) = .error e ∧
    ((∃ p ∈ elems, (p.2).isSome = true) →
      isOkE (StorageAtKeys keys (.ok elems)) = false) ∧
    ((∀ p ∈ elems, p.2 = none) → elems.length = keys.length →
      ∃ m, StorageAtKeys keys (.ok elems) = .ok m ∧
        ∀ k, (goMapLookup m k).isSome = true ↔ k ∈ keys) := by
  refine ⟨rfl, ?_, ?_⟩
  · rintro ⟨p, hp, hpe⟩
    unfold StorageAtKeys
    simp only
    cases hfe : firstElemErrorAux 0 elems with
    | none =>
      exfalso
      have hz := (firstElemErrorAux_none_iff elems 0).mp hfe p hp
      rw [hz] at hpe
      cases hpe
    | some pr =>
      obtain ⟨i, er⟩ := pr
      rfl
  · intro hall hlen
    unfold StorageAtKeys
    simp only
    cases hfe : firstElemErrorAux 0 elems with
    | none =>
      refine ⟨buildResults [] keys elems, rfl, fun k => ?_⟩
      rw [buildResults_lookup keys elems [] k hlen]
      simp [goMapLookup]
    | some pr =>
      exfalso
      have hz := (firstElemErrorAux_none_iff elems 0).mpr hall
      rw [hz] at hfe
      cases hfe

/-- Witness for C4 (amended): two keys whose elements both succeed yield a
map containing exactly those keys. -/
theorem storageAtKeys_batch_semantics_witness :
    isOkE (StorageAtKeys [1, 2] (.ok [(10, none), (20, none)])) = true := by
  obtain ⟨m, hm, -⟩ :=
    (storageAtKeys_batch_semantics [1, 2] [(10, none), (20, none)] "x").2.2
      (by decide) (by decide)
  rw [hm]
  rfl
